import Mathlib

/-!
# gocron, service/task.go: a shallow embedding

The file embeds the task service of gocron (the running registry `Instance`,
`execJob`, `createTaskLog`, `updateTaskLog`, `createJob`, `createHandler`,
`Task.Add`, `Task.Run`) as Lean functions over an explicit world state, and
proves properties of that embedding.

Conventions of the embedding:
* Go `int8` values are integers in `[-128, 127]` (`GoInt8`); arithmetic on them
  wraps around explicitly (`wrapInt8`).
* A Go `error` is `Option String`: `none` is `nil`, `some msg` is a non-nil
  error whose `Error()` text is `msg`.
* The effects the service performs itself (handler invocations, sleeps, its own
  logger calls, persistence calls, cron registrations) are appended, in program
  order, to `World.trace`.
* One handler invocation is the single effect `Event.run`. What a handler does
  inside `Run` (the process it spawns, the HTTP request, the ssh session, and
  the three `logger.Error` calls of `HTTPHandler.Run`) is not recorded in the
  trace; only its output and error are modelled (`RunFn`).
* The answers of external collaborators are parameters (`RunFn`, `Env`).
-/

namespace Gocron

/-! ## Machine integers -/

/-- Wrap-around of a mathematical integer into the range of Go's `int8`. -/
def wrapInt8 (x : Int) : Int := (x + 128) % 256 - 128

/-- Wrap-around of a mathematical integer into the range of Go's `int64`. -/
def wrapInt64 (x : Int) : Int :=
  (x + 9223372036854775808) % 18446744073709551616 - 9223372036854775808

/-- A value of Go type `int8`. -/
abbrev GoInt8 := { x : Int // -128 ≤ x ∧ x ≤ 127 }

/-- Conversion of the result of an `int8` operation: the value wraps around. -/
def GoInt8.ofInt (x : Int) : GoInt8 :=
  ⟨wrapInt8 x, by unfold wrapInt8; omega⟩

/-- Addition on `int8` as Go performs it (`+=`, `++`). -/
def GoInt8.add (a b : GoInt8) : GoInt8 := GoInt8.ofInt (a.val + b.val)

/-- The `int8` constant 0. -/
def GoInt8.zero : GoInt8 := ⟨0, by decide⟩

/-- The `int8` constant 1. -/
def GoInt8.one : GoInt8 := ⟨1, by decide⟩

/-- The value of `time.Minute`: one minute in nanoseconds. -/
def Minute : Int := 60000000000

/-! ## Data model -/

/-- A Go `error` value: `none` is `nil`, `some msg` is an error with text `msg`. -/
abbrev GoError := Option String

/-- Modelled from the spec: the type `models.Status` and its four constants used
by `service/task.go` (`models.Running`, `models.Finish`, `models.Failure`,
`models.Cancel`) are declared in package `models`, which is not part of the
sources; the spec gives the log status as the enum
`Running | Finish | Failure | Cancel`. -/
inductive Status where
  | Running
  | Finish
  | Failure
  | Cancel
  deriving DecidableEq, Repr

/-- The fields of `models.TaskHost` that `service/task.go` reads.
`TaskName` is `taskModel.Task.Name`; `Name` is the host name. -/
structure TaskHost where
  Id : Int
  TaskName : String
  Spec : String
  Protocol : Int
  Command : String
  Timeout : Int
  Multi : Int
  RetryTimes : GoInt8
  Name : String
  Alias : String
  deriving DecidableEq

/-- The value `execJob` returns. -/
structure TaskResult where
  Result : String
  Err : GoError
  RetryTimes : GoInt8
  deriving DecidableEq

/-- The fields `createTaskLog` fills in before `Create()`; `StartTime`
(the wall clock) is left out. -/
structure TaskLog where
  TaskId : Int
  Name : String
  Spec : String
  Protocol : Int
  Command : String
  Timeout : Int
  Hostname : String
  Status : Status
  deriving DecidableEq

/-- The `models.CommonMap` that `updateTaskLog` passes to `Update`. -/
structure CommonMap where
  retry_times : GoInt8
  status : Status
  result : String
  deriving DecidableEq

/-- An entry of the cron scheduler: the name, the spec and the task whose job
body was registered. -/
structure CronEntry where
  Name : String
  Spec : String
  Task : TaskHost
  deriving DecidableEq

/-- The externally visible effects of the service, in program order. -/
inductive Event where
  /-- `handler.Run(taskModel)` was invoked; the effects inside the call, the
  `logger.Error` calls of `HTTPHandler.Run` among them, are part of this one effect. -/
  | run
  /-- `time.Sleep(d)`, with `d` in nanoseconds. -/
  | sleep (d : Int)
  /-- The `logger.Warnf` call of `execJob`: task id, retry number, output, error text. -/
  | warnf (id : Int) (i : Int) (output : String) (err : String)
  /-- A `logger.Error` call with its message. -/
  | error (msg : String)
  /-- A `taskLogModel.Create()` request. -/
  | createLog (log : TaskLog)
  /-- A `taskLogModel.Update(taskLogId, fields)` request. -/
  | updateLog (taskLogId : Int) (fields : CommonMap)
  /-- A `Cron.RemoveJob(name)` call. -/
  | removeJob (name : String)
  /-- A `Cron.AddFunc(spec, job, name)` call. -/
  | addFunc (spec : String) (name : String)
  deriving DecidableEq

/-- The running registry `Instance`: the Go map `Status map[int]bool`. -/
structure Instance where
  Status : Int → Option Bool

/-- The state the service acts on: the global `runInstance`, the entries of the
global `Cron`, and the effects performed so far. -/
structure World where
  runInstance : Instance
  cron : List CronEntry
  trace : List Event

/-- Append one effect to the trace. -/
def World.emit (w : World) (e : Event) : World :=
  { w with trace := w.trace ++ [e] }

/-! ## The running registry -/

/-- The registry after `Instance{make(map[int]bool)}`. -/
def Instance.empty : Instance := ⟨fun _ => none⟩

/-- Embedding of `func (i *Instance) has(key int) bool`. -/
def Instance.has (i : Instance) (key : Int) : Bool :=
  match i.Status key with
  | some running => running
  | none => false

/-- Embedding of `func (i *Instance) add(key int)`. -/
def Instance.add (i : Instance) (key : Int) : Instance :=
  ⟨fun k => if k = key then some true else i.Status k⟩

/-- Embedding of `func (i *Instance) done(key int)`. -/
def Instance.done (i : Instance) (key : Int) : Instance :=
  ⟨fun k => if k = key then some false else i.Status k⟩

/-! ## The retry engine -/

/-- The behaviour of a handler on one task: the output and error of its
`n`-th invocation (counted from 0) within one call of `execJob`. -/
abbrev RunFn := Nat → String × GoError

set_option linter.unusedVariables false in
/-- The `for i < execTimes` loop of `execJob`. `n` counts the handler
invocations made so far; `output` and `err` are the loop-carried variables. -/
def execLoop (run : RunFn) (t : TaskHost) (execTimes : GoInt8) (i : GoInt8) (n : Nat)
    (output : String) (err : GoError) (w : World) : TaskResult × World :=
  if h : i.val < execTimes.val then
    let r := run n
    let w1 := w.emit Event.run
    match r.2 with
    | none => ({ Result := r.1, Err := none, RetryTimes := i }, w1)
    | some e =>
      let i1 := GoInt8.add i GoInt8.one
      let w2 :=
        if i1.val < execTimes.val then
          (w1.emit (Event.warnf t.Id i1.val r.1 e)).emit
            (Event.sleep (wrapInt64 (i1.val * Minute)))
        else w1
      execLoop run t execTimes i1 (n + 1) r.1 (some e) w2
  else
    ({ Result := output, Err := err, RetryTimes := t.RetryTimes }, w)
termination_by (execTimes.val - i.val).toNat
decreasing_by
  have hE := execTimes.property
  have hI := i.property
  simp only [GoInt8.add, GoInt8.ofInt, GoInt8.one, wrapInt8]
  omega

/-- Embedding of `func execJob(handler Handler, taskModel models.TaskHost) TaskResult`. -/
def execJob (run : RunFn) (t : TaskHost) (w : World) : TaskResult × World :=
  let execTimes : GoInt8 :=
    if t.RetryTimes.val > 0 then GoInt8.add GoInt8.one t.RetryTimes else GoInt8.one
  execLoop run t execTimes GoInt8.zero 0 "" none w

/-! ## Handlers -/

/-- Modelled from the spec: the protocol constants `models.TaskHTTP`,
`models.TaskSSH` and `models.TaskLocalCommand` are declared in package
`models`, which is not part of the sources; their values are parameters. -/
structure Models where
  TaskHTTP : Int
  TaskSSH : Int
  TaskLocalCommand : Int

/-- The three implementations of the interface `Handler`. -/
inductive Handler where
  | HTTPHandler
  | SSHCommandHandler
  | LocalCommandHandler
  deriving DecidableEq, Repr

/-- The answers of the external collaborators: the persistence layer
(`Create`, `Update`), the cron library (`AddFunc`), and the I/O primitives the
three handlers delegate to. -/
structure Env where
  /-- Result of `taskLogModel.Create()`: insert id and error. -/
  create : TaskLog → Int × GoError
  /-- Result of `taskLogModel.Update(id, fields)`: affected rows and error. -/
  update : Int → CommonMap → Int × GoError
  /-- Error of `Cron.AddFunc(spec, job, name)` for the given spec. -/
  addFunc : String → GoError
  /-- Behaviour of `utils.ExecShellWithTimeout` (with the platform encoding step). -/
  execShell : TaskHost → RunFn
  /-- Output and error of `HTTPHandler.Run`, the whole method. -/
  httpGet : TaskHost → RunFn
  /-- Behaviour of `ssh.Exec`. -/
  sshExec : TaskHost → RunFn

/-- Embedding of the three `Run` methods, as the behaviour of a handler on a task:
the output and the error of each invocation. The body of `HTTPHandler.Run`
(request creation, `client.Do`, `ioutil.ReadAll`, the test of the status code)
is the collaborator `env.httpGet`; its `logger.Error` calls on the three error
returns are not recorded in the trace. -/
def Handler.Run (env : Env) (h : Handler) (t : TaskHost) : RunFn :=
  match h with
  | Handler.LocalCommandHandler =>
    if t.Command = "" then fun _ => ("", some "invalid command") else env.execShell t
  | Handler.HTTPHandler => env.httpGet t
  | Handler.SSHCommandHandler => env.sshExec t

/-- Embedding of `func createHandler(taskModel models.TaskHost) Handler`;
`none` is the nil handler. -/
def createHandler (m : Models) (t : TaskHost) : Option Handler :=
  if t.Protocol = m.TaskHTTP then some Handler.HTTPHandler
  else if t.Protocol = m.TaskSSH then some Handler.SSHCommandHandler
  else if t.Protocol = m.TaskLocalCommand then some Handler.LocalCommandHandler
  else none

/-! ## Task logs -/

/-- Embedding of `func createTaskLog(taskModel, status) (int64, error)`. -/
def createTaskLog (m : Models) (env : Env) (t : TaskHost) (status : Status) (w : World) :
    (Int × GoError) × World :=
  let taskLogModel : TaskLog :=
    { TaskId := t.Id
      Name := t.TaskName
      Spec := t.Spec
      Protocol := t.Protocol
      Command := t.Command
      Timeout := t.Timeout
      Hostname := if t.Protocol = m.TaskSSH then t.Alias ++ "-" ++ t.Name else ""
      Status := status }
  (env.create taskLogModel, w.emit (Event.createLog taskLogModel))

/-- The `models.CommonMap` built by `updateTaskLog` from a task result. -/
def updateFields (taskResult : TaskResult) : CommonMap :=
  match taskResult.Err with
  | some e =>
    { retry_times := taskResult.RetryTimes
      status := Status.Failure
      result := e ++ " " ++ taskResult.Result }
  | none =>
    { retry_times := taskResult.RetryTimes
      status := Status.Finish
      result := taskResult.Result }

/-- Embedding of `func updateTaskLog(taskLogId int64, taskResult TaskResult) (int64, error)`. -/
def updateTaskLog (env : Env) (taskLogId : Int) (taskResult : TaskResult) (w : World) :
    (Int × GoError) × World :=
  (env.update taskLogId (updateFields taskResult),
    w.emit (Event.updateLog taskLogId (updateFields taskResult)))

/-! ## The job body -/

/-- The guard test at the top of the job body:
`taskModel.Multi == 0 && runInstance.has(taskModel.Id)`. -/
def guardRejects (t : TaskHost) (w : World) : Bool :=
  decide (t.Multi = 0) && w.runInstance.has t.Id

/-- The statement `if taskModel.Multi == 0 { runInstance.add(taskModel.Id) ... }`. -/
def acquire (t : TaskHost) (w : World) : World :=
  if t.Multi = 0 then { w with runInstance := w.runInstance.add t.Id } else w

/-- The deferred call `runInstance.done(taskModel.Id)`, registered only when
`taskModel.Multi == 0`; it runs when the job body returns. -/
def release (t : TaskHost) (w : World) : World :=
  if t.Multi = 0 then { w with runInstance := w.runInstance.done t.Id } else w

/-- The job body from `createTaskLog(taskModel, models.Running)` to its end,
without the deferred release. -/
def jobMain (m : Models) (env : Env) (handler : Handler) (t : TaskHost) (w : World) : World :=
  let r := createTaskLog m env t Status.Running w
  match r.1.2 with
  | some err => r.2.emit (Event.error ("任务开始执行#写入任务日志失败-" ++ err))
  | none =>
    let x := execJob (handler.Run env t) t r.2
    let u := updateTaskLog env r.1.1 x.1 x.2
    match u.1.2 with
    | some err => u.2.emit (Event.error ("任务结束#更新任务日志失败-" ++ err))
    | none => u.2

/-- The closure `taskFunc` built by `createJob`: one firing of the task. -/
def jobBody (m : Models) (env : Env) (handler : Handler) (t : TaskHost) (w : World) : World :=
  if guardRejects t w then
    (createTaskLog m env t Status.Cancel w).2
  else
    release t (jobMain m env handler t (acquire t w))

/-- Embedding of `func createJob(taskModel models.TaskHost) cron.FuncJob`;
`none` is the nil function. -/
def createJob (m : Models) (env : Env) (t : TaskHost) : Option (World → World) :=
  match createHandler m t with
  | none => none
  | some handler => some (jobBody m env handler t)

/-! ## The scheduler facade -/

/-- A run-time fault of the Go program. -/
inductive Fault where
  /-- A nil function value was called. -/
  | nilFuncCall
  deriving DecidableEq, Repr

/-- Embedding of `func (task *Task) Add(taskModel models.TaskHost)`. -/
def Task.Add (m : Models) (env : Env) (t : TaskHost) (w : World) : Except Fault World :=
  match createJob m env t with
  | none =>
    Except.ok (w.emit (Event.error
      ("创建任务处理Job失败,不支持的任务协议#" ++ toString t.Protocol)))
  | some _ =>
    let cronName := toString t.Id
    let w1 : World :=
      { (w.emit (Event.removeJob cronName)) with
        cron := w.cron.filter (fun e => decide (e.Name ≠ cronName)) }
    let w2 := w1.emit (Event.addFunc t.Spec cronName)
    match env.addFunc t.Spec with
    | some err => Except.ok (w2.emit (Event.error ("添加任务到调度器失败#" ++ err)))
    | none => Except.ok { w2 with cron := w2.cron ++ [⟨cronName, t.Spec, t⟩] }

/-- Embedding of `func (task *Task) Run(taskModel models.TaskHost)`:
`go createJob(taskModel)()`. The job returned by `createJob` is called without
a nil test; the started job body is run to completion. -/
def Task.Run (m : Models) (env : Env) (t : TaskHost) (w : World) : Except Fault World :=
  match createJob m env t with
  | none => Except.error Fault.nilFuncCall
  | some job => Except.ok (job w)

/-! ## Sequences of registry operations -/

/-- One operation on the running registry. -/
inductive Op where
  | add (key : Int)
  | done (key : Int)
  deriving DecidableEq, Repr

/-- The task id an operation acts on. -/
def Op.key : Op → Int
  | Op.add k => k
  | Op.done k => k

/-- Perform one registry operation. -/
def Op.apply (i : Instance) : Op → Instance
  | Op.add k => i.add k
  | Op.done k => i.done k

/-- Perform a sequence of registry operations, first to last. -/
def applyOps (i : Instance) (ops : List Op) : Instance :=
  ops.foldl Op.apply i

/-- The last operation of a sequence that acts on `k`, if there is one. -/
def lastOpOn (k : Int) (ops : List Op) : Option Op :=
  (ops.filter (fun o => decide (o.key = k))).getLast?

/-! ## Observations on traces -/

/-- An effect that matters for the timing of the retry engine: a handler
invocation or a sleep. -/
def Event.isTiming : Event → Bool
  | Event.run => true
  | Event.sleep _ => true
  | _ => false

/-- The handler invocations and sleeps of a trace, in order. -/
def timeline (tr : List Event) : List Event := tr.filter Event.isTiming

/-- The number of handler invocations in a trace. -/
def invocations (tr : List Event) : Nat := tr.count Event.run

/-- The timeline of `n` handler invocations with a sleep of `j` minutes between
the `j`-th and the `(j+1)`-th invocation, and no other sleep. -/
def backoffSchedule : Nat → List Event
  | 0 => []
  | k + 1 =>
    Event.run ::
      (List.range k).flatMap (fun j => [Event.sleep (((j : Int) + 1) * Minute), Event.run])

/-- The timeline of `k` further invocations when `n` invocations were made before:
each invocation but the last is followed by the sleep before the next one. -/
def backoffFrom (n : Nat) : Nat → List Event
  | 0 => []
  | k + 1 =>
    Event.run ::
      (match k with
       | 0 => []
       | _ + 1 => Event.sleep (((n : Int) + 1) * Minute) :: backoffFrom (n + 1) k)

/-! ## Concurrent firings -/

/-- The position of one firing of the job body, run as a goroutine; the
positions are the points between its calls. -/
inductive Pc where
  /-- Before the guard test of line 230. -/
  | check
  /-- The guard test was false; before `if taskModel.Multi == 0` of line 234. -/
  | acquire
  /-- Before `createTaskLog(taskModel, models.Running)`. -/
  | startLog
  /-- Before `execJob(handler, taskModel)`, holding the log id. -/
  | exec (taskLogId : Int)
  /-- Before `updateTaskLog(taskLogId, taskResult)`. -/
  | update (taskLogId : Int) (taskResult : TaskResult)
  /-- The body has returned; the deferred `done` has not run yet. -/
  | release
  /-- The firing is over. -/
  | finished
  deriving DecidableEq

/-- The positions at which the retry engine is about to run or has just returned. -/
def Pc.inEngine : Pc → Bool
  | Pc.exec _ => true
  | Pc.update _ _ => true
  | _ => false

/-- One step of one firing on the shared world. -/
def Pc.step (m : Models) (env : Env) (handler : Handler) (t : TaskHost) (pc : Pc) (w : World) :
    Pc × World :=
  match pc with
  | Pc.check =>
    if guardRejects t w then (Pc.finished, (createTaskLog m env t Status.Cancel w).2)
    else (Pc.acquire, w)
  | Pc.acquire => (Pc.startLog, Gocron.acquire t w)
  | Pc.startLog =>
    let r := createTaskLog m env t Status.Running w
    match r.1.2 with
    | some err => (Pc.release, r.2.emit (Event.error ("任务开始执行#写入任务日志失败-" ++ err)))
    | none => (Pc.exec r.1.1, r.2)
  | Pc.exec taskLogId =>
    let x := execJob (handler.Run env t) t w
    (Pc.update taskLogId x.1, x.2)
  | Pc.update taskLogId taskResult =>
    let u := updateTaskLog env taskLogId taskResult w
    match u.1.2 with
    | some err => (Pc.release, u.2.emit (Event.error ("任务结束#更新任务日志失败-" ++ err)))
    | none => (Pc.release, u.2)
  | Pc.release => (Pc.finished, Gocron.release t w)
  | Pc.finished => (Pc.finished, w)

/-- Run one firing alone for `n` steps. -/
def Pc.steps (m : Models) (env : Env) (handler : Handler) (t : TaskHost) :
    Nat → Pc × World → Pc × World
  | 0, s => s
  | n + 1, s => Pc.steps m env handler t n (Pc.step m env handler t s.1 s.2)

/-- The invariant of a firing of a task with `Multi == 0` that passed the guard:
from the start log to the deferred release the id is marked running. -/
def guardHeld (t : TaskHost) : Pc × World → Prop
  | (Pc.check, w) => w.runInstance.has t.Id = false
  | (Pc.acquire, _) => True
  | (Pc.startLog, w) => w.runInstance.has t.Id = true
  | (Pc.exec _, w) => w.runInstance.has t.Id = true
  | (Pc.update _ _, w) => w.runInstance.has t.Id = true
  | (Pc.release, w) => w.runInstance.has t.Id = true
  | (Pc.finished, _) => True

/-- The two goroutines of two firings. -/
inductive Tid where
  | A
  | B
  deriving DecidableEq, Repr

/-- Two firings of the same task on one shared world. -/
structure Sys where
  world : World
  pcA : Pc
  pcB : Pc

/-- The goroutine `who` makes its next step; `envA` and `envB` are the answers
the collaborators give to the calls of firing A and of firing B. -/
def Sys.step (m : Models) (envA envB : Env) (handler : Handler) (t : TaskHost) (s : Sys)
    (who : Tid) : Sys :=
  match who with
  | Tid.A =>
    let r := Pc.step m envA handler t s.pcA s.world
    { s with world := r.2, pcA := r.1 }
  | Tid.B =>
    let r := Pc.step m envB handler t s.pcB s.world
    { s with world := r.2, pcB := r.1 }

/-- Run the two firings under a schedule: the list says who steps next. -/
def Sys.run (m : Models) (envA envB : Env) (handler : Handler) (t : TaskHost) (s : Sys)
    (schedule : List Tid) : Sys :=
  schedule.foldl (Sys.step m envA envB handler t) s

/-! ## Example inputs -/

/-- The state after `Initialize` with no task: empty registry, no cron entry,
no effect yet. -/
def World.init : World := ⟨Instance.empty, [], []⟩

/-- Protocol constants as in gocron: HTTP 1, SSH 2, local command 3. -/
def exampleModels : Models := ⟨1, 2, 3⟩

/-- A local-command task with the given id, `multi` flag and retry count. -/
def exampleTask (id : Int) (multi : Int) (retryTimes : GoInt8) : TaskHost :=
  { Id := id
    TaskName := "job"
    Spec := "0 * * * * *"
    Protocol := 3
    Command := "true"
    Timeout := 0
    Multi := multi
    RetryTimes := retryTimes
    Name := ""
    Alias := "" }

/-- The task with the largest `int8` retry count, 127. -/
def retry127 : TaskHost := exampleTask 1 0 ⟨127, by decide⟩

/-- A handler that succeeds on every invocation with output `ok`. -/
def succeedsAtOnce : RunFn := fun _ => ("ok", none)

/-- A handler that fails on every invocation. -/
def alwaysFails : RunFn := fun _ => ("out", some "exit status 1")

/-- A handler that fails on its first two invocations and succeeds on the third. -/
def failsTwice : RunFn := fun n => if n < 2 then ("out", some "exit status 1") else ("ok", none)

/-- Collaborators that always succeed; `Create` answers with the given log id,
the shell command succeeds at once. -/
def exampleEnv (logId : Int) : Env :=
  { create := fun _ => (logId, none)
    update := fun _ _ => (1, none)
    addFunc := fun _ => none
    execShell := fun _ => succeedsAtOnce
    httpGet := fun _ => succeedsAtOnce
    sshExec := fun _ => succeedsAtOnce }

/-- The local-command task with id 1, `Multi == 0` and no retry. -/
def singleTask : TaskHost := exampleTask 1 0 ⟨0, by decide⟩

/-- The log entry `createTaskLog` builds for `singleTask` with the given status. -/
def singleTaskLog (status : Status) : TaskLog :=
  { TaskId := 1
    Name := "job"
    Spec := "0 * * * * *"
    Protocol := 3
    Command := "true"
    Timeout := 0
    Hostname := ""
    Status := status }

/-- A task whose protocol is none of the three known ones. -/
def unknownProtocolTask : TaskHost :=
  { exampleTask 1 0 ⟨0, by decide⟩ with Protocol := 9 }

/-- The schedule in which both firings test the guard before either sets it,
and firing B then runs to its end while firing A is about to run the handler. -/
def stolenGuardSchedule : List Tid :=
  [Tid.A, Tid.B, Tid.A, Tid.B, Tid.A, Tid.B, Tid.B, Tid.B, Tid.B]

/-- The schedule in which both firings test the guard before either sets it. -/
def raceSchedule : List Tid :=
  [Tid.A, Tid.B, Tid.A, Tid.B, Tid.A, Tid.B, Tid.A, Tid.B, Tid.A, Tid.B, Tid.A, Tid.B]

end Gocron

/-! # Theorems -/

namespace Gocron

/-! ## Unfolding the retry loop -/

theorem execLoop_exit (run : RunFn) (t : TaskHost) (execTimes i : GoInt8) (n : Nat)
    (output : String) (err : GoError) (w : World) (h : ¬ i.val < execTimes.val) :
    execLoop run t execTimes i n output err w
      = ({ Result := output, Err := err, RetryTimes := t.RetryTimes }, w) := by
  rw [execLoop]
  simp [h]

theorem execLoop_success (run : RunFn) (t : TaskHost) (execTimes i : GoInt8) (n : Nat)
    (output : String) (err : GoError) (w : World) (h : i.val < execTimes.val)
    (hr : (run n).2 = none) :
    execLoop run t execTimes i n output err w
      = ({ Result := (run n).1, Err := none, RetryTimes := i }, w.emit Event.run) := by
  rw [execLoop]
  simp [h, hr]

theorem execLoop_failure (run : RunFn) (t : TaskHost) (execTimes i : GoInt8) (n : Nat)
    (output : String) (err : GoError) (w : World) (h : i.val < execTimes.val)
    (e : String) (hr : (run n).2 = some e) :
    execLoop run t execTimes i n output err w
      = execLoop run t execTimes (GoInt8.add i GoInt8.one) (n + 1) (run n).1 (some e)
          (if (GoInt8.add i GoInt8.one).val < execTimes.val then
            ((w.emit Event.run).emit
                (Event.warnf t.Id (GoInt8.add i GoInt8.one).val (run n).1 e)).emit
              (Event.sleep (wrapInt64 ((GoInt8.add i GoInt8.one).val * Minute)))
           else w.emit Event.run) := by
  rw [execLoop]
  simp [h, hr]

/-- Below the bound of the loop, `i++` does not wrap. -/
theorem GoInt8.add_one_val (i execTimes : GoInt8) (h : i.val < execTimes.val) :
    (GoInt8.add i GoInt8.one).val = i.val + 1 := by
  have hE := execTimes.property
  have hI := i.property
  simp only [GoInt8.add, GoInt8.ofInt, GoInt8.one, wrapInt8]
  omega


/-! ## The retry loop: results -/

/-- When the handler fails on every remaining attempt, the loop makes all of them
and returns the output and error of the last one. -/
theorem execLoop_all_fail (run : RunFn) (t : TaskHost) (execTimes : GoInt8) :
    ∀ (d : Nat) (i : GoInt8) (n : Nat) (output : String) (err : GoError) (w : World),
      execTimes.val - i.val = (d : Int) + 1 →
      (∀ j, n ≤ j → j < n + d + 1 → (run j).2 ≠ none) →
      (execLoop run t execTimes i n output err w).1
          = { Result := (run (n + d)).1, Err := (run (n + d)).2, RetryTimes := t.RetryTimes }
        ∧ ∃ new, (execLoop run t execTimes i n output err w).2.trace = w.trace ++ new
            ∧ invocations new = d + 1 := by
  intro d
  induction d with
  | zero =>
    intro i n output err w hd hfail
    have hlt : i.val < execTimes.val := by omega
    obtain ⟨e, he⟩ := Option.ne_none_iff_exists'.mp (hfail n (le_refl n) (by omega))
    have h1 := GoInt8.add_one_val i execTimes hlt
    have hnot : ¬ (GoInt8.add i GoInt8.one).val < execTimes.val := by omega
    rw [execLoop_failure run t execTimes i n output err w hlt e he, if_neg hnot,
      execLoop_exit run t execTimes _ _ _ _ _ hnot]
    refine ⟨by simp [he], [Event.run], by simp [World.emit], by simp [invocations]⟩
  | succ d ih =>
    intro i n output err w hd hfail
    have hlt : i.val < execTimes.val := by omega
    obtain ⟨e, he⟩ := Option.ne_none_iff_exists'.mp (hfail n (le_refl n) (by omega))
    have h1 := GoInt8.add_one_val i execTimes hlt
    have hnext : (GoInt8.add i GoInt8.one).val < execTimes.val := by omega
    rw [execLoop_failure run t execTimes i n output err w hlt e he, if_pos hnext]
    obtain ⟨hres, new, htr, hinv⟩ :=
      ih (GoInt8.add i GoInt8.one) (n + 1) (run n).1 (some e)
        (((w.emit Event.run).emit
            (Event.warnf t.Id (GoInt8.add i GoInt8.one).val (run n).1 e)).emit
          (Event.sleep (wrapInt64 ((GoInt8.add i GoInt8.one).val * Minute))))
        (by omega)
        (fun j h1 h2 => hfail j (by omega) (by omega))
    refine ⟨?_, ?_⟩
    · rw [hres]
      have : n + 1 + d = n + (d + 1) := by omega
      rw [this]
    · refine ⟨[Event.run, Event.warnf t.Id (GoInt8.add i GoInt8.one).val (run n).1 e,
          Event.sleep (wrapInt64 ((GoInt8.add i GoInt8.one).val * Minute))] ++ new, ?_, ?_⟩
      · rw [htr]
        simp [World.emit]
      · simp only [invocations] at hinv ⊢
        simp [List.count_cons, hinv]

/-- When the handler fails `k` times and then succeeds, and `k + 1` attempts are
within the bound of the loop, the loop returns the successful output with `k`
as the number of retries. -/
theorem execLoop_success_after (run : RunFn) (t : TaskHost) (execTimes : GoInt8) :
    ∀ (k : Nat) (i : GoInt8) (n : Nat) (output : String) (err : GoError) (w : World),
      i.val + (k : Int) < execTimes.val →
      (∀ j, n ≤ j → j < n + k → (run j).2 ≠ none) →
      (run (n + k)).2 = none →
      (execLoop run t execTimes i n output err w).1.Result = (run (n + k)).1
        ∧ (execLoop run t execTimes i n output err w).1.Err = none
        ∧ (execLoop run t execTimes i n output err w).1.RetryTimes.val = i.val + k
        ∧ ∃ new, (execLoop run t execTimes i n output err w).2.trace = w.trace ++ new
            ∧ invocations new = k + 1 := by
  intro k
  induction k with
  | zero =>
    intro i n output err w hk _ hsucc
    have hlt : i.val < execTimes.val := by omega
    rw [execLoop_success run t execTimes i n output err w hlt hsucc]
    exact ⟨rfl, rfl, by simp, [Event.run], by simp [World.emit], by simp [invocations]⟩
  | succ k ih =>
    intro i n output err w hk hfail hsucc
    have hlt : i.val < execTimes.val := by omega
    obtain ⟨e, he⟩ := Option.ne_none_iff_exists'.mp (hfail n (le_refl n) (by omega))
    have h1 := GoInt8.add_one_val i execTimes hlt
    have hnext : (GoInt8.add i GoInt8.one).val < execTimes.val := by omega
    rw [execLoop_failure run t execTimes i n output err w hlt e he, if_pos hnext]
    have hidx : n + 1 + k = n + (k + 1) := by omega
    obtain ⟨hres, herr, hretry, new, htr, hinv⟩ :=
      ih (GoInt8.add i GoInt8.one) (n + 1) (run n).1 (some e)
        (((w.emit Event.run).emit
            (Event.warnf t.Id (GoInt8.add i GoInt8.one).val (run n).1 e)).emit
          (Event.sleep (wrapInt64 ((GoInt8.add i GoInt8.one).val * Minute))))
        (by omega)
        (fun j h1 h2 => hfail j (by omega) (by omega))
        (by rw [hidx]; exact hsucc)
    refine ⟨by rw [hres, hidx], herr, by rw [hretry, h1]; push_cast; omega, ?_⟩
    refine ⟨[Event.run, Event.warnf t.Id (GoInt8.add i GoInt8.one).val (run n).1 e,
        Event.sleep (wrapInt64 ((GoInt8.add i GoInt8.one).val * Minute))] ++ new, ?_, ?_⟩
    · rw [htr]
      simp [World.emit]
    · simp only [invocations] at hinv ⊢
      simp [List.count_cons, hinv]


/-! ## The retry loop: timing -/

theorem timeline_append (a b : List Event) : timeline (a ++ b) = timeline a ++ timeline b := by
  simp [timeline]

theorem invocations_append (a b : List Event) :
    invocations (a ++ b) = invocations a + invocations b := by
  simp [invocations]

/-- From attempt `n` on, the loop emits a run, and after each failed attempt
that is not the last a sleep of `n + 1` minutes. -/
theorem execLoop_timeline (run : RunFn) (t : TaskHost) (execTimes : GoInt8) :
    ∀ (d : Nat) (i : GoInt8) (n : Nat) (output : String) (err : GoError) (w : World),
      (execTimes.val - i.val).toNat ≤ d → i.val = (n : Int) →
      ∃ new, (execLoop run t execTimes i n output err w).2.trace = w.trace ++ new
        ∧ timeline new = backoffFrom n (invocations new)
        ∧ (i.val < execTimes.val → 0 < invocations new)
        ∧ (¬ i.val < execTimes.val → new = []) := by
  intro d
  induction d with
  | zero =>
    intro i n output err w hd _
    have hnot : ¬ i.val < execTimes.val := by omega
    rw [execLoop_exit run t execTimes i n output err w hnot]
    exact ⟨[], by simp, by simp [timeline, invocations, backoffFrom], fun h => absurd h hnot,
      fun _ => rfl⟩
  | succ d ih =>
    intro i n output err w hd hin
    by_cases hlt : i.val < execTimes.val
    · cases hr : (run n).2 with
      | none =>
        rw [execLoop_success run t execTimes i n output err w hlt hr]
        exact ⟨[Event.run], by simp [World.emit],
          by simp [timeline, invocations, backoffFrom, Event.isTiming],
          fun _ => by simp [invocations], fun h => absurd hlt h⟩
      | some e =>
        have h1 := GoInt8.add_one_val i execTimes hlt
        have hE := execTimes.property
        rw [execLoop_failure run t execTimes i n output err w hlt e hr]
        by_cases hnext : (GoInt8.add i GoInt8.one).val < execTimes.val
        · rw [if_pos hnext]
          obtain ⟨new, htr, htl, hpos, _⟩ :=
            ih (GoInt8.add i GoInt8.one) (n + 1) (run n).1 (some e)
              (((w.emit Event.run).emit
                  (Event.warnf t.Id (GoInt8.add i GoInt8.one).val (run n).1 e)).emit
                (Event.sleep (wrapInt64 ((GoInt8.add i GoInt8.one).val * Minute))))
              (by omega) (by rw [h1, hin]; push_cast; rfl)
          have hwrap : wrapInt64 ((GoInt8.add i GoInt8.one).val * Minute)
              = ((n : Int) + 1) * Minute := by
            rw [h1, hin]
            unfold wrapInt64 Minute
            omega
          obtain ⟨k, hk⟩ : ∃ k, invocations new = k + 1 :=
            ⟨invocations new - 1, by have := hpos hnext; omega⟩
          refine ⟨[Event.run, Event.warnf t.Id (GoInt8.add i GoInt8.one).val (run n).1 e,
              Event.sleep (wrapInt64 ((GoInt8.add i GoInt8.one).val * Minute))] ++ new,
            ?_, ?_, ?_, fun h => absurd hlt h⟩
          · rw [htr]
            simp [World.emit]
          · rw [timeline_append, invocations_append, htl, hk, hwrap]
            simp [timeline, invocations, Event.isTiming, backoffFrom, Nat.add_comm]
          · intro _
            rw [invocations_append]
            simp [invocations]
        · rw [if_neg hnext]
          obtain ⟨new, htr, _, _, hnil⟩ :=
            ih (GoInt8.add i GoInt8.one) (n + 1) (run n).1 (some e) (w.emit Event.run)
              (by omega) (by rw [h1, hin]; push_cast; rfl)
          have hnew := hnil hnext
          subst hnew
          refine ⟨[Event.run], ?_, ?_, fun _ => by simp [invocations], fun h => absurd hlt h⟩
          · rw [htr]
            simp [World.emit]
          · simp [timeline, invocations, backoffFrom, Event.isTiming]
    · rw [execLoop_exit run t execTimes i n output err w hlt]
      exact ⟨[], by simp, by simp [timeline, invocations, backoffFrom],
        fun h => absurd h hlt, fun _ => rfl⟩

/-- The recursive and the closed description of the backoff timeline agree. -/
theorem backoffFrom_eq (k : Nat) : ∀ n : Nat,
    backoffFrom n (k + 1) = Event.run ::
      (List.range k).flatMap
        (fun j => [Event.sleep (((n : Int) + (j : Int) + 1) * Minute), Event.run]) := by
  induction k with
  | zero => intro n; simp [backoffFrom]
  | succ k ih =>
    intro n
    rw [backoffFrom]
    rw [ih (n + 1), List.range_succ_eq_map, List.flatMap_cons, List.flatMap_map]
    have hfun : (fun j : Nat =>
          [Event.sleep ((((n + 1 : Nat) : Int) + (j : Int) + 1) * Minute), Event.run])
        = (fun j : Nat =>
          [Event.sleep (((n : Int) + ((Nat.succ j : Nat) : Int) + 1) * Minute), Event.run]) := by
      funext j
      have : (((n + 1 : Nat) : Int) + (j : Int) + 1) = ((n : Int) + ((Nat.succ j : Nat) : Int) + 1) := by
        push_cast
        omega
      rw [this]
    rw [hfun]
    simp

theorem backoffFrom_zero (k : Nat) : backoffFrom 0 k = backoffSchedule k := by
  cases k with
  | zero => rfl
  | succ k =>
    rw [backoffFrom_eq]
    simp [backoffSchedule]


/-! ## The retry engine -/

/-- The loop bound computed by `execJob`. -/
theorem execJob_eq (run : RunFn) (t : TaskHost) (w : World) :
    execJob run t w
      = execLoop run t
          (if t.RetryTimes.val > 0 then GoInt8.add GoInt8.one t.RetryTimes else GoInt8.one)
          GoInt8.zero 0 "" none w := rfl

/-- Up to 126 retries the loop bound is `1 + max(0, retryTimes)`. -/
theorem execTimes_val (t : TaskHost) (h : t.RetryTimes.val ≤ 126) :
    (if t.RetryTimes.val > 0 then GoInt8.add GoInt8.one t.RetryTimes else GoInt8.one).val
      = 1 + max 0 t.RetryTimes.val := by
  split
  · simp only [GoInt8.add, GoInt8.ofInt, GoInt8.one, wrapInt8]
    omega
  · simp only [GoInt8.one]
    omega

/-- With 127 retries the loop bound wraps around to -128. -/
theorem execTimes_val_127 (t : TaskHost) (h : t.RetryTimes.val = 127) :
    (if t.RetryTimes.val > 0 then GoInt8.add GoInt8.one t.RetryTimes else GoInt8.one).val
      = -128 := by
  rw [if_pos (by omega)]
  simp only [GoInt8.add, GoInt8.ofInt, GoInt8.one, wrapInt8, h]
  decide

/-- With 127 retries `execJob` returns at once, for every handler: no invocation,
empty output, nil error, 127 as the number of retries. -/
theorem execJob_retry127 (run : RunFn) (t : TaskHost) (w : World)
    (h : t.RetryTimes.val = 127) :
    execJob run t w = ({ Result := "", Err := none, RetryTimes := t.RetryTimes }, w) := by
  rw [execJob_eq]
  apply execLoop_exit
  rw [execTimes_val_127 t h]
  decide

/-- Up to 126 retries: a handler that fails `k` times and then succeeds, with
`k` at most the retry count, gives the successful output, a nil error, `k`
retries and `k + 1` invocations. -/
theorem execJob_success_after (run : RunFn) (t : TaskHost) (w : World) (k : Nat)
    (h126 : t.RetryTimes.val ≤ 126) (hk : (k : Int) ≤ t.RetryTimes.val)
    (hfail : ∀ j, j < k → (run j).2 ≠ none) (hsucc : (run k).2 = none) :
    (execJob run t w).1.Result = (run k).1
      ∧ (execJob run t w).1.Err = none
      ∧ (execJob run t w).1.RetryTimes.val = k
      ∧ ∃ new, (execJob run t w).2.trace = w.trace ++ new ∧ invocations new = k + 1 := by
  rw [execJob_eq]
  have hE := execTimes_val t h126
  have := execLoop_success_after run t
    (if t.RetryTimes.val > 0 then GoInt8.add GoInt8.one t.RetryTimes else GoInt8.one)
    k GoInt8.zero 0 "" none w
    (by rw [hE]; simp only [GoInt8.zero]; omega)
    (fun j _ h2 => hfail j (by omega))
    (by simpa using hsucc)
  simpa [GoInt8.zero] using this

/-- Up to 126 retries: a handler that always fails is invoked
`1 + max(0, retryTimes)` times, and `execJob` returns the output and error of
the last invocation with the configured retry count. -/
theorem execJob_all_fail (run : RunFn) (t : TaskHost) (w : World)
    (h126 : t.RetryTimes.val ≤ 126) (hfail : ∀ j, (run j).2 ≠ none) :
    (execJob run t w).1
        = { Result := (run t.RetryTimes.val.toNat).1, Err := (run t.RetryTimes.val.toNat).2,
            RetryTimes := t.RetryTimes }
      ∧ ∃ new, (execJob run t w).2.trace = w.trace ++ new
          ∧ invocations new = 1 + t.RetryTimes.val.toNat := by
  rw [execJob_eq]
  have hE := execTimes_val t h126
  have := execLoop_all_fail run t
    (if t.RetryTimes.val > 0 then GoInt8.add GoInt8.one t.RetryTimes else GoInt8.one)
    t.RetryTimes.val.toNat GoInt8.zero 0 "" none w
    (by rw [hE]; simp only [GoInt8.zero]; omega)
    (fun j _ _ => hfail j)
  simpa [Nat.add_comm] using this

/-- The retry engine touches neither the running registry nor the cron entries. -/
theorem execLoop_frame (run : RunFn) (t : TaskHost) (execTimes : GoInt8) :
    ∀ (d : Nat) (i : GoInt8) (n : Nat) (output : String) (err : GoError) (w : World),
      (execTimes.val - i.val).toNat ≤ d →
      (execLoop run t execTimes i n output err w).2.runInstance = w.runInstance
        ∧ (execLoop run t execTimes i n output err w).2.cron = w.cron := by
  intro d
  induction d with
  | zero =>
    intro i n output err w hd
    rw [execLoop_exit run t execTimes i n output err w (by omega)]
    exact ⟨rfl, rfl⟩
  | succ d ih =>
    intro i n output err w hd
    by_cases hlt : i.val < execTimes.val
    · cases hr : (run n).2 with
      | none =>
        rw [execLoop_success run t execTimes i n output err w hlt hr]
        exact ⟨rfl, rfl⟩
      | some e =>
        have h1 := GoInt8.add_one_val i execTimes hlt
        rw [execLoop_failure run t execTimes i n output err w hlt e hr]
        obtain ⟨ha, hb⟩ := ih (GoInt8.add i GoInt8.one) (n + 1) (run n).1 (some e)
          (if (GoInt8.add i GoInt8.one).val < execTimes.val then
            ((w.emit Event.run).emit
                (Event.warnf t.Id (GoInt8.add i GoInt8.one).val (run n).1 e)).emit
              (Event.sleep (wrapInt64 ((GoInt8.add i GoInt8.one).val * Minute)))
           else w.emit Event.run) (by omega)
        rw [ha, hb]
        split <;> exact ⟨rfl, rfl⟩
    · rw [execLoop_exit run t execTimes i n output err w hlt]
      exact ⟨rfl, rfl⟩

theorem execJob_frame (run : RunFn) (t : TaskHost) (w : World) :
    (execJob run t w).2.runInstance = w.runInstance ∧ (execJob run t w).2.cron = w.cron :=
  execLoop_frame run t _ _ _ _ _ _ _ (le_refl _)

/-- The trace of `execJob` extends the trace it starts from, and its timeline is
the backoff schedule of its invocations. -/
theorem execJob_timeline (run : RunFn) (t : TaskHost) (w : World) :
    ∃ new, (execJob run t w).2.trace = w.trace ++ new
      ∧ timeline new = backoffSchedule (invocations new) := by
  rw [execJob_eq]
  obtain ⟨new, htr, htl, _, _⟩ := execLoop_timeline run t
    (if t.RetryTimes.val > 0 then GoInt8.add GoInt8.one t.RetryTimes else GoInt8.one)
    _ GoInt8.zero 0 "" none w (le_refl _) (by simp [GoInt8.zero])
  exact ⟨new, htr, by rw [htl, backoffFrom_zero]⟩


/-- The timeline of a backoff schedule neither starts nor ends with a sleep. -/
theorem backoffSchedule_ends (n : Nat) (d : Int) :
    (backoffSchedule n).head? ≠ some (Event.sleep d)
      ∧ (backoffSchedule n).getLast? ≠ some (Event.sleep d) := by
  cases n with
  | zero => simp [backoffSchedule]
  | succ k =>
    refine ⟨by simp [backoffSchedule], ?_⟩
    cases k with
    | zero => simp [backoffSchedule]
    | succ k =>
      have : backoffSchedule (k + 1 + 1)
          = (Event.run :: (List.range k).flatMap
                (fun j => [Event.sleep (((j : Int) + 1) * Minute), Event.run])
              ++ [Event.sleep (((k : Int) + 1) * Minute)]) ++ [Event.run] := by
        simp [backoffSchedule, List.range_succ]
      rw [this, List.getLast?_append]
      simp

/-- C4: for every task and every handler behaviour, the handler invocations and
sleeps that `execJob` adds to the trace are exactly the backoff schedule of its
invocations: a sleep of `j` minutes between the `j`-th and the `(j+1)`-th
invocation, for `j` from 1 to the number of invocations minus 1, in that order,
and no other sleep; in particular no sleep comes first and none comes last. -/
theorem execJob_backoff_waits (run : RunFn) (t : TaskHost) (w : World) :
    ∃ new, (execJob run t w).2.trace = w.trace ++ new
      ∧ timeline new = backoffSchedule (invocations new)
      ∧ (∀ d, (timeline new).head? ≠ some (Event.sleep d))
      ∧ (∀ d, (timeline new).getLast? ≠ some (Event.sleep d)) := by
  obtain ⟨new, htr, htl⟩ := execJob_timeline run t w
  refine ⟨new, htr, htl, fun d => ?_, fun d => ?_⟩
  · rw [htl]
    exact (backoffSchedule_ends _ d).1
  · rw [htl]
    exact (backoffSchedule_ends _ d).2

/-- C1, at the defect: the handler `succeedsAtOnce` succeeds on its first
invocation (k = 0) and the task `retry127` has 127 retries, at least k; yet
`execJob` never invokes the handler and returns an empty result with 127
retries, where the claim has the handler's output `ok` and 0 retries. -/
theorem execJob_retry127_ignores_success :
    succeedsAtOnce 0 = ("ok", none)
      ∧ retry127.RetryTimes.val = 127
      ∧ (execJob succeedsAtOnce retry127 World.init).1.Result = ""
      ∧ (execJob succeedsAtOnce retry127 World.init).1.RetryTimes.val = 127
      ∧ (execJob succeedsAtOnce retry127 World.init).2.trace = [] := by
  rw [execJob_retry127 succeedsAtOnce retry127 World.init rfl]
  exact ⟨rfl, rfl, rfl, rfl, rfl⟩

/-- C2, at the defect: the handler `alwaysFails` fails on every invocation, yet
for the task `retry127` (127 retries) `execJob` returns a nil error and an empty
result, where the claim has the non-nil error and the output of the last
invocation. -/
theorem execJob_retry127_hides_failure :
    (∀ n, (alwaysFails n).2 = some "exit status 1")
      ∧ (execJob alwaysFails retry127 World.init).1.Err = none
      ∧ (execJob alwaysFails retry127 World.init).1.Result = ""
      ∧ (execJob alwaysFails retry127 World.init).1.RetryTimes.val = 127 := by
  rw [execJob_retry127 alwaysFails retry127 World.init rfl]
  exact ⟨fun _ => rfl, rfl, rfl, rfl⟩

/-- C3, at the defect: for the task `retry127` (127 retries) and the handler
`alwaysFails`, `execJob` makes no handler invocation at all, where the claim
has `1 + max(0, 127) = 128` invocations and at least one for every task. -/
theorem execJob_retry127_no_invocation :
    invocations (execJob alwaysFails retry127 World.init).2.trace = 0
      ∧ 1 + max 0 retry127.RetryTimes.val = 128 := by
  rw [execJob_retry127 alwaysFails retry127 World.init rfl]
  exact ⟨rfl, by decide⟩


/-! ## The running registry -/

theorem Instance.has_add (i : Instance) (key k : Int) :
    (i.add key).has k = if k = key then true else i.has k := by
  unfold Instance.has Instance.add
  by_cases h : k = key <;> simp [h]

theorem Instance.has_done (i : Instance) (key k : Int) :
    (i.done key).has k = if k = key then false else i.has k := by
  unfold Instance.has Instance.done
  by_cases h : k = key <;> simp [h]

theorem Instance.has_empty (k : Int) : Instance.empty.has k = false := rfl

/-- An operation on another id leaves `has k` as it was. -/
theorem Op.apply_has_of_ne (i : Instance) (o : Op) (k : Int) (h : o.key ≠ k) :
    (Op.apply i o).has k = i.has k := by
  cases o with
  | add key =>
    have hk : ¬ k = key := fun e => h e.symm
    simp [Op.apply, Instance.has_add, hk]
  | done key =>
    have hk : ¬ k = key := fun e => h e.symm
    simp [Op.apply, Instance.has_done, hk]

theorem applyOps_append (i : Instance) (ops : List Op) (o : Op) :
    applyOps i (ops ++ [o]) = Op.apply (applyOps i ops) o := by
  simp [applyOps, List.foldl_append]

theorem lastOpOn_append (k : Int) (ops : List Op) (o : Op) :
    lastOpOn k (ops ++ [o]) = if o.key = k then some o else lastOpOn k ops := by
  unfold lastOpOn
  by_cases h : o.key = k
  · simp [List.filter_append, h]
  · simp [List.filter_append, h]

/-- From any registry, `has k` after a sequence of operations is decided by the
last operation on `k`, and is the initial value when there is none. -/
theorem applyOps_has (i : Instance) (k : Int) (ops : List Op) :
    (applyOps i ops).has k
      = (match lastOpOn k ops with
         | some (Op.add _) => true
         | some (Op.done _) => false
         | none => i.has k) := by
  induction ops using List.reverseRecOn with
  | nil => simp [applyOps, lastOpOn]
  | append_singleton ops o ih =>
    rw [applyOps_append, lastOpOn_append]
    by_cases h : o.key = k
    · rw [if_pos h]
      cases o with
      | add key =>
        have hk : k = key := h.symm
        simp [Op.apply, Instance.has_add, hk]
      | done key =>
        have hk : k = key := h.symm
        simp [Op.apply, Instance.has_done, hk]
    · rw [if_neg h, Op.apply_has_of_ne _ _ _ h, ih]

/-- The last operation on `k`, when there is one, is an operation on `k`. -/
theorem lastOpOn_key (k : Int) (ops : List Op) (o : Op) (h : lastOpOn k ops = some o) :
    o.key = k := by
  unfold lastOpOn at h
  have hmem := List.mem_of_getLast?_eq_some h
  simpa using (List.mem_filter.mp hmem).2

/-- C5: after any finite sequence of add/done operations on the empty registry,
`has k` is true if and only if the sequence has an operation on `k` and the last
one is `add`; and an operation on an id other than `k` never changes `has k`. -/
theorem has_iff_last_op_is_add (ops : List Op) (k : Int) :
    ((applyOps Instance.empty ops).has k = true ↔ lastOpOn k ops = some (Op.add k))
      ∧ ∀ (i : Instance) (o : Op), o.key ≠ k → (Op.apply i o).has k = i.has k := by
  refine ⟨?_, fun i o h => Op.apply_has_of_ne i o k h⟩
  rw [applyOps_has]
  cases hl : lastOpOn k ops with
  | none => simp [Instance.has_empty]
  | some o =>
    have hkey := lastOpOn_key k ops o hl
    cases o with
    | add key =>
      have : key = k := hkey
      simp [this]
    | done key => simp

theorem has_iff_last_op_is_add_witness :
    (applyOps Instance.empty [Op.add 1, Op.done 1, Op.add 2, Op.add 1, Op.done 2]).has 1 = true
      ∧ (Op.done 2).key ≠ 1
      ∧ (Op.apply (Instance.empty.add 1) (Op.done 2)).has 1 = (Instance.empty.add 1).has 1 :=
  ⟨(has_iff_last_op_is_add [Op.add 1, Op.done 1, Op.add 2, Op.add 1, Op.done 2] 1).1.mpr
      (by decide),
    by decide,
    (has_iff_last_op_is_add [] 1).2 (Instance.empty.add 1) (Op.done 2) (by decide)⟩


/-! ## Task logs -/

theorem createTaskLog_world (m : Models) (env : Env) (t : TaskHost) (status : Status)
    (w : World) :
    ∃ log, log.Status = status ∧ log.TaskId = t.Id
      ∧ (createTaskLog m env t status w).2 = w.emit (Event.createLog log)
      ∧ (createTaskLog m env t status w).1 = env.create log :=
  ⟨_, rfl, rfl, rfl, rfl⟩

/-- C9: for every log id and task result, `updateTaskLog` issues exactly one
update, for that log id; its status is Finish when the result's error is nil and
Failure otherwise, its retry_times is the result's RetryTimes, and its result
text is the handler output on success and, on failure, the error message, a
blank and the handler output, so the error message is a prefix and the output a
suffix of the stored text. -/
theorem updateTaskLog_fields (env : Env) (taskLogId : Int) (taskResult : TaskResult)
    (w : World) :
    ∃ fields, (updateTaskLog env taskLogId taskResult w).2.trace
        = w.trace ++ [Event.updateLog taskLogId fields]
      ∧ fields.retry_times = taskResult.RetryTimes
      ∧ (taskResult.Err = none →
          fields.status = Status.Finish ∧ fields.result = taskResult.Result)
      ∧ (∀ e, taskResult.Err = some e →
          fields.status = Status.Failure
            ∧ fields.result = e ++ " " ++ taskResult.Result
            ∧ e.data <+: fields.result.data
            ∧ taskResult.Result.data <:+ fields.result.data) := by
  refine ⟨updateFields taskResult, rfl, ?_, ?_, ?_⟩
  · unfold updateFields
    split <;> rfl
  · intro h
    simp [updateFields, h]
  · intro e h
    simp only [updateFields, h, String.data_append, List.append_assoc, true_and]
    exact ⟨List.prefix_append _ _, ⟨e.data ++ " ".data, by simp⟩⟩

theorem updateTaskLog_fields_witness :
    ∃ fields, (updateTaskLog (exampleEnv 1) 5 ⟨"out", some "exit status 1", ⟨2, by decide⟩⟩
          World.init).2.trace = World.init.trace ++ [Event.updateLog 5 fields]
      ∧ fields.status = Status.Failure
      ∧ fields.result = "exit status 1 out" := by
  obtain ⟨fields, htr, _, _, hfail⟩ :=
    updateTaskLog_fields (exampleEnv 1) 5 ⟨"out", some "exit status 1", ⟨2, by decide⟩⟩
      World.init
  obtain ⟨hs, hr, _, _⟩ := hfail "exit status 1" rfl
  exact ⟨fields, htr, hs, by rw [hr]; decide⟩

/-! ## The job body -/

theorem createJob_some (m : Models) (env : Env) (t : TaskHost) (job : World → World)
    (h : createJob m env t = some job) :
    ∃ handler, createHandler m t = some handler ∧ job = jobBody m env handler t := by
  unfold createJob at h
  cases hh : createHandler m t with
  | none => simp [hh] at h
  | some handler =>
    simp only [hh, Option.some.injEq] at h
    exact ⟨handler, rfl, h.symm⟩

/-- C6: for a task with `Multi == 0` whose id is marked running, one execution
of the job built by `createJob` adds exactly one effect to the trace, a
create-log request with status Cancel for this task; so the handler is not
invoked and no update-log request is issued; and the running registry and the
cron entries are unchanged, so the id stays marked running. -/
theorem createJob_rejects_running (m : Models) (env : Env) (t : TaskHost)
    (job : World → World) (w : World) (hjob : createJob m env t = some job)
    (hmulti : t.Multi = 0) (hrun : w.runInstance.has t.Id = true) :
    ∃ log, log.Status = Status.Cancel ∧ log.TaskId = t.Id
      ∧ (job w).trace = w.trace ++ [Event.createLog log]
      ∧ (job w).runInstance = w.runInstance
      ∧ (job w).runInstance.has t.Id = true
      ∧ (job w).cron = w.cron := by
  obtain ⟨handler, _, rfl⟩ := createJob_some m env t job hjob
  have hg : guardRejects t w = true := by simp [guardRejects, hmulti, hrun]
  obtain ⟨log, hs, hid, hw, _⟩ := createTaskLog_world m env t Status.Cancel w
  refine ⟨log, hs, hid, ?_, ?_, ?_, ?_⟩ <;> simp [jobBody, hg, hw, World.emit, hrun]

theorem createJob_rejects_running_witness :
    ∃ log, log.Status = Status.Cancel ∧ log.TaskId = 1
      ∧ (jobBody exampleModels (exampleEnv 1) Handler.LocalCommandHandler
            (exampleTask 1 0 ⟨0, by decide⟩)
            ⟨Instance.empty.add 1, [], []⟩).trace = [Event.createLog log] := by
  obtain ⟨log, hs, hid, htr, _⟩ :=
    createJob_rejects_running exampleModels (exampleEnv 1) (exampleTask 1 0 ⟨0, by decide⟩)
      (jobBody exampleModels (exampleEnv 1) Handler.LocalCommandHandler
        (exampleTask 1 0 ⟨0, by decide⟩))
      ⟨Instance.empty.add 1, [], []⟩ (by rfl) (by rfl) (by rfl)
  exact ⟨log, hs, hid, by simpa using htr⟩


theorem jobMain_frame (m : Models) (env : Env) (handler : Handler) (t : TaskHost) (w : World) :
    (jobMain m env handler t w).runInstance = w.runInstance
      ∧ (jobMain m env handler t w).cron = w.cron := by
  unfold jobMain
  simp only
  split
  · exact ⟨rfl, rfl⟩
  · have hf := execJob_frame (handler.Run env t) t (createTaskLog m env t Status.Running w).2
    split
    · exact ⟨hf.1, hf.2⟩
    · exact ⟨hf.1, hf.2⟩

/-- When the start log cannot be created, the rest of the job body only logs. -/
theorem jobMain_start_failure (m : Models) (env : Env) (handler : Handler) (t : TaskHost)
    (w : World) (h : (createTaskLog m env t Status.Running w).1.2 ≠ none) :
    invocations (jobMain m env handler t w).trace = invocations w.trace := by
  obtain ⟨e, he⟩ := Option.ne_none_iff_exists'.mp h
  unfold jobMain
  simp only [he]
  simp [createTaskLog, World.emit, invocations]

/-! ## One firing, step by step -/

theorem steps_finished (m : Models) (env : Env) (handler : Handler) (t : TaskHost)
    (n : Nat) (w : World) :
    Pc.steps m env handler t n (Pc.finished, w) = (Pc.finished, w) := by
  induction n with
  | zero => rfl
  | succ n ih => simpa [Pc.steps, Pc.step] using ih

theorem step_check_pass (m : Models) (env : Env) (handler : Handler) (t : TaskHost)
    (w : World) (hg : guardRejects t w = false) :
    Pc.step m env handler t Pc.check w = (Pc.acquire, w) := by
  simp [Pc.step, hg]

theorem step_check_reject (m : Models) (env : Env) (handler : Handler) (t : TaskHost)
    (w : World) (hg : guardRejects t w = true) :
    Pc.step m env handler t Pc.check w
      = (Pc.finished, (createTaskLog m env t Status.Cancel w).2) := by
  simp [Pc.step, hg]

theorem step_startLog_ok (m : Models) (env : Env) (handler : Handler) (t : TaskHost)
    (w : World) (hc : (createTaskLog m env t Status.Running w).1.2 = none) :
    Pc.step m env handler t Pc.startLog w
      = (Pc.exec (createTaskLog m env t Status.Running w).1.1,
          (createTaskLog m env t Status.Running w).2) := by
  simp only [Pc.step, hc]

theorem step_startLog_err (m : Models) (env : Env) (handler : Handler) (t : TaskHost)
    (w : World) (e : String) (hc : (createTaskLog m env t Status.Running w).1.2 = some e) :
    Pc.step m env handler t Pc.startLog w
      = (Pc.release, (createTaskLog m env t Status.Running w).2.emit
          (Event.error ("任务开始执行#写入任务日志失败-" ++ e))) := by
  simp only [Pc.step, hc]

theorem step_update (m : Models) (env : Env) (handler : Handler) (t : TaskHost)
    (w : World) (taskLogId : Int) (taskResult : TaskResult) :
    Pc.step m env handler t (Pc.update taskLogId taskResult) w
      = (Pc.release,
          match (updateTaskLog env taskLogId taskResult w).1.2 with
          | some err => (updateTaskLog env taskLogId taskResult w).2.emit
              (Event.error ("任务结束#更新任务日志失败-" ++ err))
          | none => (updateTaskLog env taskLogId taskResult w).2) := by
  simp only [Pc.step]
  split <;> rfl

theorem steps_succ (m : Models) (env : Env) (handler : Handler) (t : TaskHost) (n : Nat)
    (pc : Pc) (w : World) :
    Pc.steps m env handler t (n + 1) (pc, w)
      = Pc.steps m env handler t n (Pc.step m env handler t pc w) := rfl

theorem step_acquire (m : Models) (env : Env) (handler : Handler) (t : TaskHost) (w : World) :
    Pc.step m env handler t Pc.acquire w = (Pc.startLog, acquire t w) := rfl

theorem step_exec (m : Models) (env : Env) (handler : Handler) (t : TaskHost) (w : World)
    (taskLogId : Int) :
    Pc.step m env handler t (Pc.exec taskLogId) w
      = (Pc.update taskLogId (execJob (handler.Run env t) t w).1,
          (execJob (handler.Run env t) t w).2) := rfl

theorem step_release (m : Models) (env : Env) (handler : Handler) (t : TaskHost) (w : World) :
    Pc.step m env handler t Pc.release w = (Pc.finished, release t w) := rfl

/-- Six steps of a firing run alone are one execution of the job body. -/
theorem steps_six (m : Models) (env : Env) (handler : Handler) (t : TaskHost) (w : World) :
    Pc.steps m env handler t 6 (Pc.check, w) = (Pc.finished, jobBody m env handler t w) := by
  cases hg : guardRejects t w with
  | true =>
    rw [steps_succ, step_check_reject m env handler t w hg, steps_finished]
    simp [jobBody, hg]
  | false =>
    rw [steps_succ, step_check_pass m env handler t w hg, steps_succ, step_acquire, steps_succ]
    simp only [jobBody, hg, jobMain, Bool.false_eq_true, if_false]
    cases hc : (createTaskLog m env t Status.Running (acquire t w)).1.2 with
    | some e =>
      rw [step_startLog_err m env handler t (acquire t w) e hc, steps_succ, step_release,
        steps_finished]
    | none =>
      rw [step_startLog_ok m env handler t (acquire t w) hc, steps_succ, step_exec,
        steps_succ, step_update, steps_succ, step_release]
      rfl


theorem has_acquire (t : TaskHost) (w : World) (hmulti : t.Multi = 0) :
    (acquire t w).runInstance.has t.Id = true := by
  simp [acquire, hmulti, Instance.has_add]

/-- One step of a firing of a task with `Multi == 0` keeps the invariant `guardHeld`. -/
theorem guardHeld_step (m : Models) (env : Env) (handler : Handler) (t : TaskHost)
    (hmulti : t.Multi = 0) (pc : Pc) (w : World) (h : guardHeld t (pc, w)) :
    guardHeld t (Pc.step m env handler t pc w) := by
  cases pc with
  | check =>
    have hg : guardRejects t w = false := by
      have hw : w.runInstance.has t.Id = false := h
      simp [guardRejects, hw]
    rw [step_check_pass m env handler t w hg]
    trivial
  | acquire =>
    rw [step_acquire]
    exact has_acquire t w hmulti
  | startLog =>
    have hw : w.runInstance.has t.Id = true := h
    cases hc : (createTaskLog m env t Status.Running w).1.2 with
    | some e =>
      rw [step_startLog_err m env handler t w e hc]
      exact hw
    | none =>
      rw [step_startLog_ok m env handler t w hc]
      exact hw
  | exec taskLogId =>
    have hw : w.runInstance.has t.Id = true := h
    rw [step_exec]
    show (execJob (handler.Run env t) t w).2.runInstance.has t.Id = true
    rw [(execJob_frame (handler.Run env t) t w).1]
    exact hw
  | update taskLogId taskResult =>
    have hw : w.runInstance.has t.Id = true := h
    rw [step_update]
    cases (updateTaskLog env taskLogId taskResult w).1.2 <;> exact hw
  | release =>
    rw [step_release]
    trivial
  | finished => trivial

theorem guardHeld_steps (m : Models) (env : Env) (handler : Handler) (t : TaskHost)
    (hmulti : t.Multi = 0) (n : Nat) :
    ∀ s : Pc × World, guardHeld t s → guardHeld t (Pc.steps m env handler t n s) := by
  induction n with
  | zero => intro s h; exact h
  | succ n ih =>
    intro s h
    obtain ⟨pc, w⟩ := s
    rw [steps_succ]
    exact ih _ (guardHeld_step m env handler t hmulti pc w h)

theorem guardHeld_inEngine (t : TaskHost) (s : Pc × World) (h : guardHeld t s)
    (he : s.1.inEngine = true) : s.2.runInstance.has t.Id = true := by
  obtain ⟨pc, w⟩ := s
  cases pc <;> first | exact h | simp [Pc.inEngine] at he

/-- A firing run alone: for a task with `Multi == 0` whose id is not marked
running when the job built by `createJob` starts, and with no other firing
stepping in between: once the job has returned the id is not marked running,
whatever the handler, the start log and the final update did; the running flag
of every other id is as before; when the start log cannot be created the handler
is not invoked; the job is the six steps of the firing, and at every step at
which the retry engine is about to run or has just returned the id is marked
running, the engine itself leaving the registry untouched. -/
theorem firing_alone_holds_and_releases_guard (m : Models) (env : Env) (t : TaskHost)
    (job : World → World) (w : World) (hjob : createJob m env t = some job)
    (hmulti : t.Multi = 0) (hfree : w.runInstance.has t.Id = false) :
    (job w).runInstance.has t.Id = false
      ∧ (∀ k, k ≠ t.Id → (job w).runInstance.has k = w.runInstance.has k)
      ∧ ((createTaskLog m env t Status.Running w).1.2 ≠ none →
          invocations (job w).trace = invocations w.trace)
      ∧ (∃ handler, createHandler m t = some handler
          ∧ Pc.steps m env handler t 6 (Pc.check, w) = (Pc.finished, job w)
          ∧ ∀ n, (Pc.steps m env handler t n (Pc.check, w)).1.inEngine = true →
              (Pc.steps m env handler t n (Pc.check, w)).2.runInstance.has t.Id = true)
      ∧ (∀ (run : RunFn) (w1 : World), (execJob run t w1).2.runInstance = w1.runInstance) := by
  obtain ⟨handler, hh, rfl⟩ := createJob_some m env t job hjob
  have hg : guardRejects t w = false := by simp [guardRejects, hfree]
  have hjb : jobBody m env handler t w
      = release t (jobMain m env handler t (acquire t w)) := by
    simp [jobBody, hg]
  have hframe := (jobMain_frame m env handler t (acquire t w)).1
  refine ⟨?_, ?_, ?_, ⟨handler, hh, steps_six m env handler t w, ?_⟩, ?_⟩
  · rw [hjb]
    simp [release, hmulti, Instance.has_done]
  · intro k hk
    have hrel : (release t (jobMain m env handler t (acquire t w))).runInstance
        = ((acquire t w).runInstance).done t.Id := by
      simp [release, hmulti, hframe]
    have hacq : (acquire t w).runInstance = w.runInstance.add t.Id := by
      simp [acquire, hmulti]
    rw [hjb, hrel, hacq]
    simp [Instance.has_done, Instance.has_add, hk]
  · intro hc
    rw [hjb]
    have hc1 : (createTaskLog m env t Status.Running (acquire t w)).1.2 ≠ none := hc
    have := jobMain_start_failure m env handler t (acquire t w) hc1
    simpa [release, hmulti, acquire] using this
  · intro n he
    exact guardHeld_inEngine t _
      (guardHeld_steps m env handler t hmulti n (Pc.check, w) hfree) he
  · intro run w1
    exact (execJob_frame run t w1).1

theorem firing_alone_holds_and_releases_guard_example :
    (jobBody exampleModels (exampleEnv 1) Handler.LocalCommandHandler singleTask
        World.init).runInstance.has 1 = false
      ∧ (Pc.steps exampleModels (exampleEnv 1) Handler.LocalCommandHandler singleTask 3
          (Pc.check, World.init)).1 = Pc.exec 1 := by
  have h := firing_alone_holds_and_releases_guard exampleModels (exampleEnv 1) singleTask
    (jobBody exampleModels (exampleEnv 1) Handler.LocalCommandHandler singleTask)
    World.init (by rfl) (by rfl) (by rfl)
  exact ⟨h.1, by rfl⟩


/-! ## Unknown protocols -/

/-- The function `createHandler` yields no handler exactly for the protocols
other than the three known ones. -/
theorem createHandler_eq_none_iff (m : Models) (t : TaskHost) :
    createHandler m t = none
      ↔ t.Protocol ≠ m.TaskHTTP ∧ t.Protocol ≠ m.TaskSSH ∧ t.Protocol ≠ m.TaskLocalCommand := by
  unfold createHandler
  by_cases h1 : t.Protocol = m.TaskHTTP
  · rw [if_pos h1]
    exact ⟨fun h => by simp at h, fun h => absurd h1 h.1⟩
  · rw [if_neg h1]
    by_cases h2 : t.Protocol = m.TaskSSH
    · rw [if_pos h2]
      exact ⟨fun h => by simp at h, fun h => absurd h2 h.2.1⟩
    · rw [if_neg h2]
      by_cases h3 : t.Protocol = m.TaskLocalCommand
      · rw [if_pos h3]
        exact ⟨fun h => by simp at h, fun h => absurd h3 h.2.2⟩
      · rw [if_neg h3]
        exact ⟨fun _ => ⟨h1, h2, h3⟩, fun _ => rfl⟩

/-- The function `createJob` yields no job exactly when `createHandler` yields
no handler. -/
theorem createJob_eq_none_iff (m : Models) (env : Env) (t : TaskHost) :
    createJob m env t = none ↔ createHandler m t = none := by
  unfold createJob
  cases createHandler m t <;> simp

/-- The method `Add` never faults, and registers nothing for an unknown protocol. -/
theorem Task.Add_ok (m : Models) (env : Env) (t : TaskHost) (w : World) :
    ∃ w1, Task.Add m env t w = Except.ok w1
      ∧ (createHandler m t = none → w1.cron = w.cron ∧ w1.runInstance = w.runInstance) := by
  unfold Task.Add createJob
  cases hh : createHandler m t with
  | none => exact ⟨_, rfl, fun _ => ⟨rfl, rfl⟩⟩
  | some handler =>
    simp only
    cases env.addFunc t.Spec with
    | none => exact ⟨_, rfl, fun h => by simp at h⟩
    | some e => exact ⟨_, rfl, fun h => by simp at h⟩

/-- The method `Run` faults exactly for the protocols `createHandler` does not know. -/
theorem Task.Run_fault_iff (m : Models) (env : Env) (t : TaskHost) (w : World) :
    Task.Run m env t w = Except.error Fault.nilFuncCall ↔ createHandler m t = none := by
  unfold Task.Run createJob
  cases createHandler m t <;> simp

/-- C10, at the defect: the task `unknownProtocolTask` has protocol 9, none of
the three known ones, and `createJob` yields no job for it; `Add` tests for that
and returns without registering anything, but `Run` calls the absent job, which
is a fault, where the claim has `Run` skip the task without a fault. -/
theorem Run_unknown_protocol_faults :
    createHandler exampleModels unknownProtocolTask = none
      ∧ (createJob exampleModels (exampleEnv 1) unknownProtocolTask).isNone = true
      ∧ (∃ w1, Task.Add exampleModels (exampleEnv 1) unknownProtocolTask World.init
            = Except.ok w1 ∧ w1.cron = [])
      ∧ Task.Run exampleModels (exampleEnv 1) unknownProtocolTask World.init
          = Except.error Fault.nilFuncCall := by
  have hh : createHandler exampleModels unknownProtocolTask = none := by decide
  refine ⟨hh, ?_, ?_, ?_⟩
  · rw [(createJob_eq_none_iff _ _ _).mpr hh]
    rfl
  · obtain ⟨w1, hw, hc⟩ := Task.Add_ok exampleModels (exampleEnv 1) unknownProtocolTask World.init
    exact ⟨w1, hw, (hc hh).1⟩
  · exact (Task.Run_fault_iff _ _ _ _).mpr hh

/-! ## Two concurrent firings -/

theorem execJob_singleTask (w : World) :
    execJob succeedsAtOnce singleTask w
      = ({ Result := "ok", Err := none, RetryTimes := GoInt8.zero }, w.emit Event.run) := by
  rw [execJob_eq]
  exact execLoop_success succeedsAtOnce singleTask _ GoInt8.zero 0 "" none w (by decide) rfl

theorem Run_singleTask (logId : Int) :
    Handler.Run (exampleEnv logId) Handler.LocalCommandHandler singleTask = succeedsAtOnce := by
  simp [Handler.Run, singleTask, exampleTask, exampleEnv]

theorem createTaskLog_singleTask (logId : Int) (status : Status) (w : World) :
    createTaskLog exampleModels (exampleEnv logId) singleTask status w
      = ((logId, none), w.emit (Event.createLog (singleTaskLog status))) := rfl

theorem updateTaskLog_ok (logId taskLogId : Int) (w : World) :
    updateTaskLog (exampleEnv logId) taskLogId
        { Result := "ok", Err := none, RetryTimes := GoInt8.zero } w
      = ((1, none), w.emit (Event.updateLog taskLogId ⟨GoInt8.zero, Status.Finish, "ok"⟩)) := rfl

theorem guardRejects_singleTask (w : World) :
    guardRejects singleTask w = w.runInstance.has 1 := by
  simp [guardRejects, singleTask, exampleTask]

theorem acquire_singleTask (w : World) :
    acquire singleTask w = { w with runInstance := w.runInstance.add 1 } := rfl

theorem release_singleTask (w : World) :
    release singleTask w = { w with runInstance := w.runInstance.done 1 } := rfl

/-- C8, at the defect: two firings A and B of `singleTask` (`Multi == 0`) start
on the empty registry and run under `raceSchedule`, in which B tests the guard
after A tested it and before A set it. After six steps both firings have
passed the guard and created a Running log (ids 1 and 2) and both are about to
run the handler; at the end the handler ran twice, both logs were updated to
Finish and no Cancel log was created, where the claim has exactly one firing
run and the other one write a Cancel log. -/
theorem race_lets_both_firings_pass :
    (Sys.run exampleModels (exampleEnv 1) (exampleEnv 2) Handler.LocalCommandHandler singleTask
        ⟨World.init, Pc.check, Pc.check⟩ (raceSchedule.take 6)).pcA = Pc.exec 1
      ∧ (Sys.run exampleModels (exampleEnv 1) (exampleEnv 2) Handler.LocalCommandHandler
          singleTask ⟨World.init, Pc.check, Pc.check⟩ (raceSchedule.take 6)).pcB = Pc.exec 2
      ∧ (Sys.run exampleModels (exampleEnv 1) (exampleEnv 2) Handler.LocalCommandHandler
          singleTask ⟨World.init, Pc.check, Pc.check⟩ raceSchedule).pcA = Pc.finished
      ∧ (Sys.run exampleModels (exampleEnv 1) (exampleEnv 2) Handler.LocalCommandHandler
          singleTask ⟨World.init, Pc.check, Pc.check⟩ raceSchedule).pcB = Pc.finished
      ∧ (Sys.run exampleModels (exampleEnv 1) (exampleEnv 2) Handler.LocalCommandHandler
          singleTask ⟨World.init, Pc.check, Pc.check⟩ raceSchedule).world.trace
          = [Event.createLog (singleTaskLog Status.Running),
             Event.createLog (singleTaskLog Status.Running),
             Event.run, Event.run,
             Event.updateLog 1 ⟨GoInt8.zero, Status.Finish, "ok"⟩,
             Event.updateLog 2 ⟨GoInt8.zero, Status.Finish, "ok"⟩] := by
  refine ⟨by rfl, by rfl, ?_, ?_, ?_⟩ <;>
    simp [Sys.run, raceSchedule, Sys.step, Pc.step, Run_singleTask, execJob_singleTask,
      guardRejects_singleTask, World.init, Instance.has_empty, acquire_singleTask,
      release_singleTask, createTaskLog_singleTask, updateTaskLog_ok, World.emit]

/-- C7, at the defect: firing A of `singleTask` (`Multi == 0`) starts with id 1
not marked running. Under `stolenGuardSchedule` firing B passes the guard in
the window between A's test and A's `add`, runs to its end and its deferred
`done` clears the flag: A is then about to run the retry engine with `has 1`
false, and after A's retry engine has run (one more step of A, the handler
invoked a second time) `has 1` is still false, where the claim has `has(id)`
true while the retry engine runs. -/
theorem concurrent_done_clears_held_guard :
    World.init.runInstance.has 1 = false
      ∧ (Sys.run exampleModels (exampleEnv 1) (exampleEnv 2) Handler.LocalCommandHandler
          singleTask ⟨World.init, Pc.check, Pc.check⟩ stolenGuardSchedule).pcA = Pc.exec 1
      ∧ (Sys.run exampleModels (exampleEnv 1) (exampleEnv 2) Handler.LocalCommandHandler
          singleTask ⟨World.init, Pc.check, Pc.check⟩ stolenGuardSchedule).pcB = Pc.finished
      ∧ (Sys.run exampleModels (exampleEnv 1) (exampleEnv 2) Handler.LocalCommandHandler
          singleTask ⟨World.init, Pc.check, Pc.check⟩
          stolenGuardSchedule).world.runInstance.has 1 = false
      ∧ (Sys.run exampleModels (exampleEnv 1) (exampleEnv 2) Handler.LocalCommandHandler
          singleTask ⟨World.init, Pc.check, Pc.check⟩ (stolenGuardSchedule ++ [Tid.A])).pcA
          = Pc.update 1 { Result := "ok", Err := none, RetryTimes := GoInt8.zero }
      ∧ (Sys.run exampleModels (exampleEnv 1) (exampleEnv 2) Handler.LocalCommandHandler
          singleTask ⟨World.init, Pc.check, Pc.check⟩
          (stolenGuardSchedule ++ [Tid.A])).world.runInstance.has 1 = false
      ∧ invocations (Sys.run exampleModels (exampleEnv 1) (exampleEnv 2)
          Handler.LocalCommandHandler singleTask ⟨World.init, Pc.check, Pc.check⟩
          (stolenGuardSchedule ++ [Tid.A])).world.trace = 2 := by
  refine ⟨rfl, ?_, ?_, ?_, ?_, ?_, ?_⟩ <;>
    simp [Sys.run, stolenGuardSchedule, Sys.step, Pc.step, Run_singleTask, execJob_singleTask,
      guardRejects_singleTask, World.init, Instance.has_empty, acquire_singleTask,
      release_singleTask, createTaskLog_singleTask, updateTaskLog_ok, World.emit,
      Instance.has_add, Instance.has_done, invocations]

end Gocron
